import Mathlib

/-
Verification of the question-grading core and test-session state machine of
the fe-koala-admin dashboard, together with the village-cost submission rule.

Strings are modeled as lists of characters (`Str`); the JavaScript
`toLowerCase` is modeled character-wise via `Char.toLower` (the claims only
exercise the ASCII fragment, where the two coincide).  JavaScript numbers are
modeled as rationals, and JavaScript `Set` values as `Finset`.
-/

namespace Koala

abbrev Str := List Char

/-- Character-wise lower-casing, modeling `String.prototype.toLowerCase`. -/
def toLower (s : Str) : Str := s.map Char.toLower

/-- JS whitespace test restricted to the common ASCII whitespace characters. -/
def isJsSpace (c : Char) : Bool := c == ' ' || c == '\t' || c == '\n' || c == '\r'

/-- Modeling `String.prototype.trim`: strip leading and trailing whitespace. -/
def jsTrim (s : Str) : Str :=
  ((s.dropWhile isJsSpace).reverse.dropWhile isJsSpace).reverse

/-- Does `h` start with `n`?  (Helper for the substring test.) -/
def startsWithStr : Str → Str → Bool
  | _, [] => true
  | [], _ :: _ => false
  | c :: cs, d :: ds => (c == d) && startsWithStr cs ds

/-- Modeling `String.prototype.includes hay.includes(needle)`: `needle` occurs
contiguously inside `hay`. -/
def strIncludes (hay needle : Str) : Bool :=
  match hay with
  | [] => needle.isEmpty
  | _ :: rest => startsWithStr hay needle || strIncludes rest needle

/-- A multiple-choice option, from `MultipleChoiceOption` in `types/index.ts`
(the display text is irrelevant to grading but kept for fidelity). -/
structure MCOption where
  id : Str
  text : Str
  is_correct : Bool
deriving DecidableEq

/-- The grading-relevant content payload of a question, one constructor per
tag of the `QuestionType` union in `types/index.ts`.  The `unknownType`
constructor models a runtime type tag outside the eleven known ones (the
TypeScript union is erased at runtime; `checkAnswer` has a `default` branch
for exactly this case).  Fields not read by `checkAnswer` (prompts,
explanations, slider bounds, ...) are omitted. -/
inductive Content where
  | multiple_choice (options : List MCOption)
  | find_error (error_index : ℤ)
  | strike_out (correct_ids_to_remove : List ℤ)
  | ordering (correct_order : List Str)
  | highlight (passage : Str) (correct_phrase : Str)
  | swipe_decision (cards : List Str)
  | fill_gap (correct_answer : Str)
  | matching (pair_ids : List Str)
  | graph_point (target_x target_y radius : ℚ)
  | trend_arrow (correct_trend : Str)
  | slider_value (correct_value tolerance : ℚ)
  | unknownType (tag : Str)
deriving DecidableEq

/-- A runtime answer value of arbitrary shape (the `answer: unknown` of the
test-mode page), used where no particular shape is forced by the question
type. -/
inductive Answer where
  | str (s : Str)
  | int (n : ℤ)
  | idxSet (s : Finset ℤ)
  | strList (l : List Str)
  | pairs (m : List (Str × Str))
  | point (p : ℚ × ℚ)
  | num (q : ℚ)
deriving DecidableEq

/-- The answer shape each `checkAnswer` branch casts its `unknown` argument
to.  The `default` branch ignores the answer entirely, so it accepts any
runtime value. -/
@[reducible] def AnswerOf : Content → Type
  | .multiple_choice _ => Str
  | .find_error _ => ℤ
  | .strike_out _ => Finset ℤ
  | .ordering _ => List Str
  | .highlight _ _ => Str
  | .swipe_decision _ => List Str
  | .fill_gap _ => Str
  | .matching _ => List (Str × Str)
  | .graph_point _ _ _ => ℚ × ℚ
  | .trend_arrow _ => Str
  | .slider_value _ _ => ℚ
  | .unknownType _ => Answer

/-- The grading engine: `checkAnswer` from `TestModePage`, one branch per
question type.  Notes on the translation:
* `ordering` compares `JSON.stringify(answerOrder) === JSON.stringify(correctOrder)`;
  JSON encoding is injective on arrays of strings, so this is element-wise
  list equality.
* `strike_out` receives a JS `Set`, modeled as a `Finset ℤ`; `correctIds` is
  `new Set(content.correct_ids_to_remove)`, i.e. the deduplicated list.
* `graph_point` compares `Math.sqrt(dx*dx + dy*dy) <= radius`; over the
  rationals this is rewritten sqrt-free as `dx^2 + dy^2 <= radius^2 ∧ 0 <= radius`.
* `swipe_decision` checks `cards.every((card, i) => card.correct_swipe === answers[i])`;
  an out-of-range `answers[i]` is `undefined` and fails the strict equality,
  hence the length guard.
* the `default` branch returns `false` for any tag outside the eleven. -/
def checkAnswer : (c : Content) → AnswerOf c → Bool
  | .multiple_choice options, answer =>
      match options.find? (fun o => o.is_correct) with
      | some correctOption => answer == correctOption.id
      | none => false
  | .find_error error_index, answer => answer == error_index
  | .strike_out correct_ids_to_remove, answerSet =>
      (answerSet.card == correct_ids_to_remove.toFinset.card) &&
        decide (∀ id ∈ answerSet, id ∈ correct_ids_to_remove.toFinset)
  | .ordering correct_order, answerOrder => answerOrder == correct_order
  | .highlight _ correct_phrase, answer =>
      strIncludes (toLower answer) (toLower correct_phrase) ||
        strIncludes (toLower correct_phrase) (toLower answer)
  | .swipe_decision cards, answers =>
      decide (cards.length ≤ answers.length) &&
        (cards.zip answers).all (fun p => p.1 == p.2)
  | .fill_gap correct_answer, answer =>
      jsTrim (toLower answer) == jsTrim (toLower correct_answer)
  | .matching pair_ids, matchMap =>
      pair_ids.all (fun id => matchMap.lookup id == some id)
  | .graph_point target_x target_y radius, p =>
      decide ((p.1 - target_x) ^ 2 + (p.2 - target_y) ^ 2 ≤ radius ^ 2 ∧ 0 ≤ radius)
  | .trend_arrow correct_trend, answer => answer == correct_trend
  | .slider_value correct_value tolerance, answer =>
      decide (|answer - correct_value| ≤ tolerance)
  | .unknownType _, _ => false

/-- A question as fetched for the test session (`Question` in
`types/index.ts`); the runtime `type` tag and the `content` record are fused
into the tagged `Content` value. -/
structure Question where
  id : ℤ
  node_id : ℤ
  content : Content
deriving DecidableEq

/-- One entry of the session's result list (`QuestionResult` in
`TestModePage`); `userAnswer` stores the raw `currentAnswer` (`null` ↦ `none`). -/
structure QuestionResult where
  questionId : ℤ
  isCorrect : Bool
  userAnswer : Option Answer
deriving DecidableEq

/-- A passage node (`PassageNode` in `types/index.ts`); only the fields the
test session reads are relevant, the rest are kept for fidelity. -/
structure PassageNode where
  id : ℤ
  passage_id : ℤ
  title : Str
  content : Str
  order_index : ℤ
  reward_coins : ℤ
  reward_xp : ℤ
  pass_score : ℤ
  is_boss : Bool
deriving DecidableEq

/-- The mutable state of `TestModePage` relevant to the session machine
(`questions`, `currentIndex`, `results`, `isComplete`, `currentAnswer`,
`showFeedback`, `isCurrentCorrect`). -/
structure SessionState where
  questions : List Question
  currentIndex : ℕ
  results : List QuestionResult
  isComplete : Bool
  currentAnswer : Option Answer
  showFeedback : Bool
  isCurrentCorrect : Bool
deriving DecidableEq

/-- `currentQuestion.id` read by `handleNextQuestion`
(`questions[currentIndex].id`).  An out-of-range index would be a runtime
`TypeError` in JS; it is defaulted to `0` here and never reached from an
in-progress state. -/
def currentQuestionId (s : SessionState) : ℤ :=
  ((s.questions.get? s.currentIndex).map Question.id).getD 0

/-- An `InProgress` state of the session machine: not complete, and the
current index denotes an actual question. -/
def InProgress (s : SessionState) : Prop :=
  s.isComplete = false ∧ s.currentIndex < s.questions.length

instance (s : SessionState) : Decidable (InProgress s) := by
  unfold InProgress; infer_instance

/-- `handleNextQuestion` from `TestModePage`: append the current result,
then advance the index (clearing `currentAnswer` and `showFeedback`) or mark
the session complete when the current index is the last one.  The branch
condition `currentIndex < questions.length - 1` is computed over ℤ as in JS. -/
def handleNextQuestion (s : SessionState) : SessionState :=
  let newResults := s.results ++
    [{ questionId := currentQuestionId s
       isCorrect := s.isCurrentCorrect
       userAnswer := s.currentAnswer }]
  if (s.currentIndex : ℤ) < (s.questions.length : ℤ) - 1 then
    { s with results := newResults, currentIndex := s.currentIndex + 1,
             currentAnswer := none, showFeedback := false }
  else
    { s with results := newResults, isComplete := true }

/-- The advance transition as exposed by the UI: the footer renders the
"Next Question / See Results" button (wired to `handleNextQuestion`) only
when `showFeedback` is true; otherwise only the submit button exists and no
advance is possible.  `none` models "transition not permitted". -/
def advance (s : SessionState) : Option SessionState :=
  if s.showFeedback then some (handleNextQuestion s) else none

/-- `results.filter(r => r.isCorrect).length`. -/
def correctCount (results : List QuestionResult) : ℕ :=
  (results.filter (fun r => r.isCorrect)).length

/-- `Math.round` for non-special doubles: round half away from zero upward,
i.e. `⌊x + 1/2⌋`. -/
def jsRound (q : ℚ) : ℤ := ⌊q + 1 / 2⌋

/-- `finalScore` from `TestModePage`:
`isComplete ? Math.round((results.filter(r => r.isCorrect).length / questions.length) * 100) : 0`. -/
def finalScore (s : SessionState) : ℤ :=
  if s.isComplete then
    jsRound (((correctCount s.results : ℚ) / (s.questions.length : ℚ)) * 100)
  else 0

/-- The effective pass threshold `node?.pass_score || 70`: `70` when the node
is absent, and also when `pass_score` is `0` (falsy in JS). -/
def passThreshold : Option PassageNode → ℤ
  | some n => if n.pass_score = 0 then 70 else n.pass_score
  | none => 70

/-- `passed = finalScore >= (node?.pass_score || 70)` from `TestModePage`. -/
def passed (node : Option PassageNode) (s : SessionState) : Bool :=
  decide (finalScore s ≥ passThreshold node)

/-- A village row (`Village` in `types/index.ts`); fields irrelevant to the
cost rule are kept for fidelity. -/
structure Village where
  id : ℤ
  title : Str
  svg : Option Str
  treasure_capacity : ℚ
  speed_production_treasure : ℚ
  cost : ℚ
deriving DecidableEq

/-- The validated create/edit form values (`VillageFormValues` in
`VillagesPage`). -/
structure VillageFormValues where
  title : Str
  svg : Str
  treasure_capacity : ℚ
  speed_production_treasure : ℚ
  cost : ℚ
deriving DecidableEq

/-- `isFirstVillage` from `VillagesPage`: when editing, the edited village is
"first" iff its stored cost is falsy (`!editingVillage.cost`); when creating,
iff the currently listed villages are empty. -/
def isFirstVillage (editingVillage : Option Village) (villages : List Village) : Bool :=
  match editingVillage with
  | some v => decide (v.cost = 0)
  | none => decide (villages.length = 0)

/-- The `cost` field of the payload `handleSubmit` hands to the persistence
collaborator (`buildingsApi.createVillage` / `updateVillage`):
`cost = isFirst ? 0 : values.cost`; a create payload always carries it, an
update (PATCH) payload carries it only when it differs from the stored cost. -/
def submittedCost (editingVillage : Option Village) (villages : List Village)
    (values : VillageFormValues) : Option ℚ :=
  let isFirst := isFirstVillage editingVillage villages
  let cost : ℚ := if isFirst then 0 else values.cost
  match editingVillage with
  | some v => if cost = v.cost then none else some cost
  | none => some cost

/-- Swap the entries at positions `i` and `j` of a list of strings, reading
both original values before writing (a transposition of the sequence). -/
def listSwap (l : List Str) (i j : ℕ) : List Str :=
  (l.set i (l.getD j [])).set j (l.getD i [])

/-- Concrete strings for the spec's highlight examples. -/
def dogStr : Str := "dog".toList

def theDogRanStr : Str := "the dog ran".toList

def catStr : Str := "cat".toList

/-- A sample trend-arrow question used to populate concrete session states. -/
def sampleQ (n : ℤ) : Question :=
  { id := n, node_id := 1, content := Content.trend_arrow "increase".toList }

/-- A completed test session over 3 questions with 2 correct answers. -/
def cState : SessionState :=
  { questions := [sampleQ 1, sampleQ 2, sampleQ 3]
    currentIndex := 2
    results :=
      [{ questionId := 1, isCorrect := true, userAnswer := some (Answer.str "increase".toList) },
       { questionId := 2, isCorrect := true, userAnswer := some (Answer.str "increase".toList) },
       { questionId := 3, isCorrect := false, userAnswer := some (Answer.str "decrease".toList) }]
    isComplete := true
    currentAnswer := none
    showFeedback := false
    isCurrentCorrect := false }

/-- A sample passage node with a given pass score. -/
def nodeOf (score : ℤ) : PassageNode :=
  { id := 5, passage_id := 2, title := "Lesson".toList, content := [], order_index := 1,
    reward_coins := 10, reward_xp := 20, pass_score := score, is_boss := false }

/-- An in-progress session (2 questions, first one answered, feedback shown). -/
def wState : SessionState :=
  { questions := [sampleQ 1, sampleQ 2]
    currentIndex := 0
    results := []
    isComplete := false
    currentAnswer := some (Answer.str "increase".toList)
    showFeedback := true
    isCurrentCorrect := true }

/-- An ordering target with a duplicated item id at two distinct positions. -/
def dupOrder : List Str := [['a'], ['a']]

/-- An ordering target with two distinct item ids. -/
def abOrder : List Str := [['a'], ['b']]

/-- Sample village form values with a nonzero user-entered cost. -/
def sampleValues : VillageFormValues :=
  { title := "Forest".toList, svg := [], treasure_capacity := 300,
    speed_production_treasure := 1, cost := 5 }

/-- A sample stored village with nonzero cost (hence not the first village). -/
def sampleVillage : Village :=
  { id := 1, title := "Hills".toList, svg := none, treasure_capacity := 300,
    speed_production_treasure := 1, cost := 3 }

lemma startsWithStr_iff (n h : Str) :
    startsWithStr h n = true ↔ ∃ r, h = n ++ r := by
  induction n generalizing h with
  | nil =>
      cases h with
      | nil => simp [startsWithStr]
      | cons c cs => simp [startsWithStr]
  | cons d ds ih =>
      cases h with
      | nil =>
          simp [startsWithStr]
      | cons c cs =>
          simp only [startsWithStr, Bool.and_eq_true, beq_iff_eq, ih]
          constructor
          · rintro ⟨hcd, r, hr⟩
            exact ⟨r, by simp [hcd, hr]⟩
          · rintro ⟨r, hr⟩
            rw [List.cons_append] at hr
            injection hr with h1 h2
            exact ⟨h1, r, h2⟩

lemma strIncludes_iff (hay needle : Str) :
    strIncludes hay needle = true ↔ ∃ l r, hay = l ++ needle ++ r := by
  induction hay with
  | nil =>
      cases needle with
      | nil => simp [strIncludes]
      | cons d ds => simp [strIncludes]
  | cons c cs ih =>
      rw [strIncludes]
      simp only [Bool.or_eq_true, startsWithStr_iff, ih]
      constructor
      · rintro (⟨r, hr⟩ | ⟨l, r, hr⟩)
        · exact ⟨[], r, by simp [hr]⟩
        · exact ⟨c :: l, r, by simp [hr]⟩
      · rintro ⟨l, r, hr⟩
        cases l with
        | nil =>
            exact Or.inl ⟨r, by simpa using hr⟩
        | cons x xs =>
            rw [List.cons_append, List.cons_append] at hr
            injection hr with h1 h2
            exact Or.inr ⟨xs, r, by simpa using h2⟩

lemma strIncludes_nil_needle (hay : Str) : strIncludes hay [] = true := by
  cases hay <;> simp [strIncludes, startsWithStr]

lemma getD_set_eq {α : Type} (l : List α) (i : ℕ) (a d : α) (h : i < l.length) :
    (l.set i a).getD i d = a := by
  induction l generalizing i with
  | nil => simp at h
  | cons x xs ih =>
      cases i with
      | zero => simp [List.set]
      | succ k =>
          simp only [List.set, List.getD_cons_succ]
          exact ih k (by simpa using h)

lemma getD_set_ne {α : Type} (l : List α) (i j : ℕ) (a d : α) (h : i ≠ j) :
    (l.set i a).getD j d = l.getD j d := by
  induction l generalizing i j with
  | nil => simp [List.set]
  | cons x xs ih =>
      cases i with
      | zero =>
          cases j with
          | zero => exact absurd rfl h
          | succ m => simp [List.set]
      | succ k =>
          cases j with
          | zero => simp [List.set]
          | succ m =>
              simp only [List.set, List.getD_cons_succ]
              exact ih k m (by omega)

lemma listSwap_getD_fst (l : List Str) (i j : ℕ) (hi : i < l.length) (hne : i ≠ j) :
    (listSwap l i j).getD i [] = l.getD j [] := by
  unfold listSwap
  rw [getD_set_ne _ j i _ _ (Ne.symm hne), getD_set_eq _ i _ _ hi]

/-- C1: for a question whose type tag is not one of the eleven known types,
the grading engine's `default` branch returns the plain boolean `false` for
every answer; its result type is `Bool`, so no distinguishable
`UnknownQuestionType` error condition is signalled, contrary to the claim. -/
theorem unknown_type_grades_plain_false (tag : Str) (a : Answer) :
    checkAnswer (Content.unknownType tag) a = false := rfl

/-- C3: for a highlight question with non-empty `correct_phrase`, grading
returns true iff, after case-folding both strings, the answer contains the
phrase as a contiguous substring or the phrase contains the answer; in
particular "the dog ran" against "dog" grades true and "cat" grades false. -/
theorem highlight_symmetric_containment (passage correct_phrase answer : Str)
    (h : correct_phrase ≠ []) :
    (checkAnswer (Content.highlight passage correct_phrase) answer = true ↔
      (∃ l r, toLower answer = l ++ toLower correct_phrase ++ r) ∨
        (∃ l r, toLower correct_phrase = l ++ toLower answer ++ r)) ∧
    checkAnswer (Content.highlight [] dogStr) theDogRanStr = true ∧
    checkAnswer (Content.highlight [] dogStr) catStr = false := by
  refine ⟨?_, by decide, by decide⟩
  simp only [checkAnswer, Bool.or_eq_true, strIncludes_iff]

theorem highlight_symmetric_containment_witness :
    checkAnswer (Content.highlight [] dogStr) theDogRanStr = true ∧
    checkAnswer (Content.highlight [] dogStr) catStr = false :=
  ⟨(highlight_symmetric_containment [] dogStr theDogRanStr (by decide)).2.1,
   (highlight_symmetric_containment [] dogStr catStr (by decide)).2.2⟩

/-- C9: for every highlight question content, grading the empty-string answer
returns true, since the empty string is a substring of every correct phrase
under the symmetric containment check. -/
theorem highlight_empty_answer_grades_true (passage correct_phrase : Str) :
    checkAnswer (Content.highlight passage correct_phrase) ([] : Str) = true := by
  simp only [checkAnswer, toLower, List.map_nil, strIncludes_nil_needle, Bool.or_true]

/-- C4: strike-out grading depends only on the answer viewed as a set: any
two list enumerations with the same underlying set of indices grade
identically, and the grade is true iff the answer set's cardinality equals
that of `correct_ids_to_remove` as a set and every member of the answer
belongs to it. -/
theorem strike_out_set_semantics (correct_ids l1 l2 : List ℤ)
    (h : l1.toFinset = l2.toFinset) :
    checkAnswer (Content.strike_out correct_ids) l1.toFinset =
      checkAnswer (Content.strike_out correct_ids) l2.toFinset ∧
    (checkAnswer (Content.strike_out correct_ids) l1.toFinset = true ↔
      l1.toFinset.card = correct_ids.toFinset.card ∧
        ∀ x ∈ l1.toFinset, x ∈ correct_ids.toFinset) := by
  constructor
  · rw [h]
  · simp only [checkAnswer, Bool.and_eq_true, beq_iff_eq, decide_eq_true_eq]

theorem strike_out_set_semantics_witness :
    checkAnswer (Content.strike_out [1, 3]) (([1, 3] : List ℤ).toFinset) =
      checkAnswer (Content.strike_out [1, 3]) (([3, 1] : List ℤ).toFinset) ∧
    (checkAnswer (Content.strike_out [1, 3]) (([1, 3] : List ℤ).toFinset) = true ↔
      (([1, 3] : List ℤ).toFinset.card = ([1, 3] : List ℤ).toFinset.card ∧
        ∀ x ∈ (([1, 3] : List ℤ).toFinset), x ∈ (([1, 3] : List ℤ).toFinset))) :=
  strike_out_set_semantics [1, 3] [1, 3] [3, 1] (by decide)

/-- C5 counterexample: with `correct_order = ["a", "a"]` (a duplicated item
id), swapping the two distinct positions 0 and 1 of the correct answer yields
the same sequence, which grades true — refuting "swapping any two positions
of a correct answer yields an answer that grades false". -/
theorem ordering_transposition_counterexample :
    (0 : ℕ) ≠ 1 ∧ listSwap dupOrder 0 1 = dupOrder ∧
    checkAnswer (Content.ordering dupOrder) (listSwap dupOrder 0 1) = true := by decide

/-- C5 (amended): ordering grading returns true iff the answer is
element-wise equal to `correct_order`; and swapping two distinct positions of
a correct answer that hold distinct ids yields an answer that grades false. -/
theorem ordering_exact_sequence (correct_order answer : List Str) (i j : ℕ)
    (hi : i < correct_order.length) (hj : j < correct_order.length) (hne : i ≠ j)
    (hval : correct_order.getD i [] ≠ correct_order.getD j []) :
    (checkAnswer (Content.ordering correct_order) answer = true ↔
      answer = correct_order) ∧
    checkAnswer (Content.ordering correct_order) (listSwap correct_order i j) = false := by
  constructor
  · simp only [checkAnswer, beq_iff_eq]
  · simp only [checkAnswer, beq_eq_false_iff_ne, ne_eq]
    intro heq
    apply hval
    have h1 : (listSwap correct_order i j).getD i [] = correct_order.getD j [] :=
      listSwap_getD_fst correct_order i j hi hne
    rw [heq] at h1
    exact h1

theorem ordering_exact_sequence_witness :
    (checkAnswer (Content.ordering abOrder) [['b'], ['a']] = true ↔
      ([['b'], ['a']] : List Str) = abOrder) ∧
    checkAnswer (Content.ordering abOrder) (listSwap abOrder 0 1) = false :=
  ordering_exact_sequence abOrder [['b'], ['a']] 0 1 (by decide) (by decide)
    (by decide) (by decide)

/-- C6: slider-value grading returns true iff the absolute difference
between the answer and `correct_value` is at most `tolerance`, boundary
inclusive; with correct value 50 and tolerance 5, answer 45 grades true and
44 grades false. -/
theorem slider_value_inclusive_tolerance (correct_value tolerance answer : ℚ) :
    (checkAnswer (Content.slider_value correct_value tolerance) answer = true ↔
      |answer - correct_value| ≤ tolerance) ∧
    checkAnswer (Content.slider_value 50 5) (45 : ℚ) = true ∧
    checkAnswer (Content.slider_value 50 5) (44 : ℚ) = false := by
  refine ⟨?_, ?_, ?_⟩
  · simp only [checkAnswer, decide_eq_true_eq]
  · simp only [checkAnswer]
    norm_num
  · simp only [checkAnswer]
    norm_num

lemma finalScore_cState : finalScore cState = 67 := by
  unfold finalScore cState correctCount jsRound
  norm_num

/-- C2 counterexample: on the completed 3-question session with 2 correct
answers (`finalScore = 67`) and node metadata present with `pass_score = 0`,
the claim's "passed is true iff finalScore >= the node's pass_score" fails:
`67 >= 0`, yet the code computes `passed = false` because a zero `pass_score`
is falsy and the threshold falls back to 70. -/
theorem pass_score_zero_counterexample :
    ¬ (passed (some (nodeOf 0)) cState = true ↔
        finalScore cState ≥ (nodeOf 0).pass_score) := by
  have hp : passed (some (nodeOf 0)) cState = false := by
    unfold passed passThreshold nodeOf
    rw [finalScore_cState]
    norm_num
  rw [hp, finalScore_cState]
  simp [nodeOf]

/-- C2 (amended): when the session is `Complete` with `n > 0` questions, the
exposed `finalScore` equals `round(100 * correctCount / n)`; `passed` is true
iff `finalScore >= pass_score` whenever node metadata is present with a
nonzero `pass_score`, and the threshold is 70 when node metadata is
unavailable (a zero `pass_score` also falls back to 70); in particular, for
3 questions with 2 correct, `finalScore = 67`, `passed = false` at
`pass_score` 70 and `passed = true` at `pass_score` 60. -/
theorem final_score_and_pass_threshold (s : SessionState) (node : PassageNode)
    (h1 : s.isComplete = true) (h2 : 0 < s.questions.length)
    (h3 : node.pass_score ≠ 0) :
    finalScore s =
      jsRound (100 * (correctCount s.results : ℚ) / (s.questions.length : ℚ)) ∧
    (passed (some node) s = true ↔ finalScore s ≥ node.pass_score) ∧
    (passed none s = true ↔ finalScore s ≥ 70) := by
  refine ⟨?_, ?_, ?_⟩
  · unfold finalScore
    rw [h1]
    simp only [if_true]
    congr 1
    ring
  · simp only [passed, passThreshold, if_neg h3, decide_eq_true_eq]
  · simp only [passed, passThreshold, decide_eq_true_eq]

theorem final_score_and_pass_threshold_witness :
    (finalScore cState =
        jsRound (100 * (correctCount cState.results : ℚ) / (cState.questions.length : ℚ)) ∧
      (passed (some (nodeOf 70)) cState = true ↔ finalScore cState ≥ (nodeOf 70).pass_score) ∧
      (passed none cState = true ↔ finalScore cState ≥ 70)) ∧
    (passed (some (nodeOf 60)) cState = true ↔ finalScore cState ≥ (nodeOf 60).pass_score) ∧
    finalScore cState = 67 ∧
    passed (some (nodeOf 70)) cState = false ∧
    passed (some (nodeOf 60)) cState = true := by
  refine ⟨final_score_and_pass_threshold cState (nodeOf 70) rfl (by decide) (by decide),
    (final_score_and_pass_threshold cState (nodeOf 60) rfl (by decide) (by decide)).2.1,
    finalScore_cState, ?_, ?_⟩
  · unfold passed passThreshold nodeOf
    rw [finalScore_cState]
    norm_num
  · unfold passed passThreshold nodeOf
    rw [finalScore_cState]
    norm_num

/-- C10: when node metadata is present but its `pass_score` is 0, the
threshold applied is 70, not 0 — a zero `pass_score` is falsy in
`node?.pass_score || 70` and is treated the same as absent node metadata, so
`passed` is true iff `finalScore >= 70`. -/
theorem zero_pass_score_uses_default_threshold (node : PassageNode)
    (s : SessionState) (h : node.pass_score = 0) :
    passThreshold (some node) = 70 ∧
    passed (some node) s = passed none s ∧
    (passed (some node) s = true ↔ finalScore s ≥ 70) := by
  have ht : passThreshold (some node) = 70 := by
    simp only [passThreshold]
    rw [if_pos h]
  refine ⟨ht, ?_, ?_⟩
  · unfold passed
    rw [ht]
    rfl
  · unfold passed
    rw [ht]
    simp only [decide_eq_true_eq]

theorem zero_pass_score_uses_default_threshold_witness :
    passThreshold (some (nodeOf 0)) = 70 ∧
    passed (some (nodeOf 0)) cState = passed none cState ∧
    (passed (some (nodeOf 0)) cState = true ↔ finalScore cState ≥ 70) :=
  zero_pass_score_uses_default_threshold (nodeOf 0) cState rfl

/-- C7: in every in-progress state, the advance transition is permitted only
when `showFeedback` is true; taking it appends exactly one record
`{questionId, isCorrect, userAnswer}` for the current question to the
results, and then either marks the session complete when `currentIndex` is
the last index, or otherwise increments `currentIndex` and resets
`currentAnswer` to null and `showFeedback` to false. -/
theorem advance_transition (s : SessionState) (h : InProgress s) :
    (s.showFeedback = false → advance s = none) ∧
    (s.showFeedback = true → advance s = some (handleNextQuestion s)) ∧
    (handleNextQuestion s).results =
      s.results ++ [{ questionId := currentQuestionId s,
                      isCorrect := s.isCurrentCorrect,
                      userAnswer := s.currentAnswer }] ∧
    (s.currentIndex + 1 = s.questions.length →
      (handleNextQuestion s).isComplete = true ∧
      (handleNextQuestion s).currentIndex = s.currentIndex) ∧
    (s.currentIndex + 1 ≠ s.questions.length →
      (handleNextQuestion s).isComplete = false ∧
      (handleNextQuestion s).currentIndex = s.currentIndex + 1 ∧
      (handleNextQuestion s).currentAnswer = none ∧
      (handleNextQuestion s).showFeedback = false) := by
  obtain ⟨hc, hlt⟩ := h
  refine ⟨?_, ?_, ?_, ?_, ?_⟩
  · intro hf
    simp [advance, hf]
  · intro hf
    simp [advance, hf]
  · simp only [handleNextQuestion]
    split <;> rfl
  · intro hlast
    have hb : ¬ ((s.currentIndex : ℤ) < (s.questions.length : ℤ) - 1) := by omega
    simp only [handleNextQuestion]
    rw [if_neg hb]
    exact ⟨rfl, rfl⟩
  · intro hne
    have hb : (s.currentIndex : ℤ) < (s.questions.length : ℤ) - 1 := by omega
    simp only [handleNextQuestion]
    rw [if_pos hb]
    exact ⟨hc, rfl, rfl, rfl⟩

theorem advance_transition_witness :
    advance wState = some (handleNextQuestion wState) ∧
    (handleNextQuestion wState).results =
      wState.results ++ [{ questionId := currentQuestionId wState,
                           isCorrect := wState.isCurrentCorrect,
                           userAnswer := wState.currentAnswer }] ∧
    (handleNextQuestion wState).isComplete = false ∧
    (handleNextQuestion wState).currentIndex = wState.currentIndex + 1 ∧
    (handleNextQuestion wState).currentAnswer = none ∧
    (handleNextQuestion wState).showFeedback = false := by
  have h := advance_transition wState (by constructor <;> decide)
  exact ⟨h.2.1 rfl, h.2.2.1, h.2.2.2.2 (by decide)⟩

/-- C8: on village form submission, if the village qualifies as the first
village (per `isFirstVillage`) then any cost value carried by the payload
handed to the persistence collaborator is 0, whatever cost the user entered;
the user-entered cost is carried only when the village is not the first. -/
theorem first_village_cost_forced_zero (editingVillage : Option Village)
    (villages : List Village) (values : VillageFormValues) :
    (isFirstVillage editingVillage villages = true →
      ∀ c, submittedCost editingVillage villages values = some c → c = 0) ∧
    (isFirstVillage editingVillage villages = false →
      ∀ c, submittedCost editingVillage villages values = some c → c = values.cost) := by
  constructor
  · intro hf c hc
    cases editingVillage with
    | none =>
        simp [submittedCost, hf] at hc
        exact hc.symm
    | some v =>
        simp [submittedCost, hf] at hc
        exact hc.2.symm
  · intro hf c hc
    cases editingVillage with
    | none =>
        simp [submittedCost, hf] at hc
        exact hc.symm
    | some v =>
        simp [submittedCost, hf] at hc
        exact hc.2.symm

theorem first_village_cost_forced_zero_witness :
    ((0 : ℚ) = 0) ∧ ((5 : ℚ) = sampleValues.cost) := by
  constructor
  · exact (first_village_cost_forced_zero none [] sampleValues).1
      (by norm_num [isFirstVillage]) 0
      (by norm_num [submittedCost, isFirstVillage])
  · exact (first_village_cost_forced_zero (some sampleVillage) [] sampleValues).2
      (by norm_num [isFirstVillage, sampleVillage]) 5
      (by norm_num [submittedCost, isFirstVillage, sampleVillage, sampleValues])

end Koala
